import Mathlib

/-!
Verification of the `reposcribe` core (`src/reposcribe/core.py`) against its
design specification.

The development shallowly embeds the Python module:

* `DEFAULT_IGNORE_PATTERNS` is transcribed verbatim from `core.py`.
* `read_gitignore_lines` is embedded over an abstract view of the user's
  ignore file (missing / unreadable / readable with given text), mirroring
  the `os.path.exists` check and the `try`/`except` around `open`/`read`.
* The gitignore matching the module delegates to
  `pathspec.PathSpec.from_lines(GitWildMatchPattern, lines)` /
  `spec.match_file(path)` is embedded by `parsePattern` / `matchFile`,
  following pathspec's documented gitwildmatch semantics: a candidate path
  is split at `/` into segments; an unanchored pattern may match starting
  at any segment boundary, an anchored one (leading `/` or internal `/`)
  only at the root; a trailing-`/` pattern requires the match to end at a
  directory (the walker passes directories with a trailing slash and files
  without); the verdict of a whole pattern list is that of the last
  matching pattern, negated patterns (`!`) clearing the ignore flag.
  Escaped characters, `**` components and `[...]` character classes are not
  modelled; none of them occur in the repository's default patterns or in
  any pattern exercised by the claims.
* `find_exportable_files` walks a filesystem tree modelled by the mutually
  inductive `FSEntry`/`FSEntries` (directories carry a `readable` flag so
  that the behaviour of `os.walk` on unopenable directories is expressible:
  `os.walk` with the default `onerror=None` silently skips a directory it
  cannot enumerate, and yields nothing at all for an unenumerable root).
  `os.walk` emits entries of one directory together before descending; the
  embedding interleaves per entry, which is immaterial because the function
  sorts its result before returning, and the enumeration order of a real
  filesystem is unspecified anyway.
* Python's `sorted` on strings (lexicographic by code point) is embedded by
  `sortStrings`, an insertion sort over the code-point order `StrLE`.
* `write_export_file` is embedded as the list of strings passed to
  `outfile.write`, together with the returned `(file_count, total_size)`
  pair; reading an input file is abstracted by an oracle
  `String → Except String String` (contents, or the message of the raised
  exception). Sizes use UTF-8 byte counts, matching the default encoding.
* `generate_file_tree` is embedded with the same nested-dictionary
  construction as the source; the renderer uses a fuel argument strictly
  larger than the depth of the structure, so the `0` branch is never taken.
-/

/-- Python `str.strip()` whitespace: space, tab, LF, CR, vertical tab, form feed. -/
def isPySpace (c : Char) : Bool :=
  c = ' ' || c = '\t' || c = '\n' || c = '\r' || c = '\x0b' || c = '\x0c'

/-- Python `str.strip()` on a list of characters. -/
def pyStrip (cs : List Char) : List Char :=
  ((cs.dropWhile isPySpace).reverse.dropWhile isPySpace).reverse

/-- Python `str.splitlines()` restricted to the line breaks `\n`, `\r\n`, `\r`
(the exotic Unicode breaks Python also recognises play no role here). -/
def pySplitlines : List Char → List (List Char)
  | [] => []
  | '\n' :: rest => [] :: pySplitlines rest
  | '\r' :: '\n' :: rest => [] :: pySplitlines rest
  | '\r' :: rest => [] :: pySplitlines rest
  | c :: rest =>
    match pySplitlines rest with
    | [] => [[c]]
    | l :: ls => (c :: l) :: ls

/-- Python `str.split(sep)` for a one-character separator. -/
def splitChar (sep : Char) : List Char → List (List Char)
  | [] => [[]]
  | c :: rest =>
    match splitChar sep rest with
    | [] => [[]]
    | s :: ss => if c = sep then [] :: s :: ss else (c :: s) :: ss

/-- Lexicographic code-point comparison of character lists; this is exactly
Python's `<=` on strings, which `sorted` uses. -/
def charsLe : List Char → List Char → Bool
  | [], _ => true
  | _ :: _, [] => false
  | a :: as, b :: bs => if a < b then true else if b < a then false else charsLe as bs

/-- Python string comparison `a <= b`. -/
def strLe (a b : String) : Bool := charsLe a.data b.data

/-- The ordering relation used to sort the result list, as a proposition. -/
def StrLE (a b : String) : Prop := strLe a b = true

instance : DecidableRel StrLE := fun a b => Bool.decEq (strLe a b) true

/-- Python `sorted` on a list of strings. -/
def sortStrings (l : List String) : List String := List.insertionSort StrLE l

/-- Single-segment wildcard match of pathspec's gitwildmatch: `*` matches any
run of characters within the segment, `?` exactly one; other characters match
literally. Path separators never occur inside a segment. -/
def globMatch : List Char → List Char → Bool
  | [], s => s.isEmpty
  | '?' :: ps, s =>
    match s with
    | [] => false
    | _ :: cs => globMatch ps cs
  | '*' :: ps, s => s.tails.any (fun t => globMatch ps t)
  | c :: ps, s =>
    match s with
    | [] => false
    | d :: ds => c == d && globMatch ps ds

/-- One compiled gitignore rule, as pathspec's `GitWildMatchPattern` derives it
from a raw line: negation marker, directory-only marker (trailing slash),
anchoring (leading slash or an internal slash), and the slash-separated
wildcard segments. -/
structure GitPattern where
  negated : Bool
  directoryOnly : Bool
  anchored : Bool
  segments : List (List Char)
deriving DecidableEq, Repr

/-- Splits off a leading negation marker `!`. -/
def negSplit (cs : List Char) : Bool × List Char :=
  match cs with
  | '!' :: rest => (true, rest)
  | _ => (false, cs)

/-- Splits off a trailing directory marker `/`. -/
def dirSplit (cs : List Char) : Bool × List Char :=
  match cs.reverse with
  | '/' :: restRev => (true, restRev.reverse)
  | _ => (false, cs)

/-- Splits off a leading anchor `/`; a pattern with an internal `/` is also
anchored. -/
def anchSplit (cs : List Char) : Bool × List Char :=
  match cs with
  | '/' :: rest => (true, rest)
  | _ => (cs.contains '/', cs)

/-- Compiles a stripped, non-null pattern line into its markers and wildcard
segments; degenerate patterns with an empty segment give a null pattern
(pathspec rejects those at compile time). -/
def compilePattern (cs : List Char) : Option GitPattern :=
  match splitChar '/' (anchSplit (dirSplit (negSplit cs).2).2).2 with
  | [] => none
  | s :: ss =>
    if (s :: ss).any List.isEmpty then none
    else
      some ⟨(negSplit cs).1, (dirSplit (negSplit cs).2).1,
            (anchSplit (dirSplit (negSplit cs).2).2).1, s :: ss⟩

/-- Compilation of one raw pattern line, following
`GitWildMatchPattern.pattern_to_regex`: the line is stripped; empty lines and
comments compile to a null pattern (`none`). -/
def parsePattern (raw : String) : Option GitPattern :=
  match pyStrip raw.data with
  | [] => none
  | '#' :: _ => none
  | c :: rest => compilePattern (c :: rest)

/-- Matches the pattern segments against an initial block of the candidate
segments, returning the candidate segments left over after the block. -/
def matchSegsPrefix : List (List Char) → List String → Option (List String)
  | [], rest => some rest
  | _ :: _, [] => none
  | p :: ps, s :: ss => if globMatch p s.data then matchSegsPrefix ps ss else none

/-- Match starting exactly at the head of `segs`. A directory-only pattern
additionally requires the matched block to end at a directory: either strictly
inside the candidate path, or at its end when the candidate is a directory
(the walker presents directories with a trailing slash, here `isDir = true`).
This mirrors the regex pathspec compiles: `segs/.*` for directory-only
patterns versus `segs(/.*)?` for plain ones. -/
def segsMatchAt (pat : GitPattern) (segs : List String) (isDir : Bool) : Bool :=
  match matchSegsPrefix pat.segments segs with
  | none => false
  | some rest => if pat.directoryOnly then !rest.isEmpty || isDir else true

/-- Structural match of one compiled pattern against a candidate path: an
anchored pattern matches only at the root of the relative path, an unanchored
one at any segment boundary (pathspec's leading `(?:.+/)?`). -/
def patternMatches (pat : GitPattern) (segs : List String) (isDir : Bool) : Bool :=
  if pat.anchored then segsMatchAt pat segs isDir
  else segs.tails.any (fun t => segsMatchAt pat t isDir)

/-- Verdict contributed by one raw pattern line for a candidate: `none` when
the line is null or does not match, otherwise `some true` for an ignoring
match and `some false` for a negated (`!`) match. -/
def patternVerdict (raw : String) (segs : List String) (isDir : Bool) : Option Bool :=
  match parsePattern raw with
  | none => none
  | some pat => if patternMatches pat segs isDir then some (!pat.negated) else none

/-- Whole-rule-set verdict, as `pathspec.PathSpec.match_file` computes it: a
single forward pass in which each matching pattern overwrites the verdict, so
the last matching pattern wins; with no match the path is not ignored. -/
def matchFile (patterns : List String) (segs : List String) (isDir : Bool) : Bool :=
  patterns.foldl (fun acc raw => (patternVerdict raw segs isDir).getD acc) false

/-- Verbatim transcription of `DEFAULT_IGNORE_PATTERNS` from `core.py`. -/
def DEFAULT_IGNORE_PATTERNS : List String := [
  ".git/",
  ".hg/",
  ".svn/",
  ".bzr/",
  ".gitignore",
  "package-lock.json",
  "yarn.lock",
  "pnpm-lock.yaml",
  "poetry.lock",
  "Pipfile.lock",
  "composer.lock",
  "Gemfile.lock",
  "Cargo.lock",
  "go.sum",
  "*.pyc",
  "__pycache__/",
  "*.class",
  "*.jar",
  "*.war",
  "*.ear",
  "*.o",
  "*.a",
  "*.so",
  "*.dylib",
  "*.dll",
  "*.exe",
  "*.wasm",
  "*.elc",
  "build/",
  "dist/",
  "target/",
  "bin/",
  "obj/",
  "out/",
  "public/build/",
  ".next/",
  ".nuxt/",
  ".svelte-kit/",
  ".vercel/",
  ".serverless/",
  ".terraform/",
  ".env",
  ".env.*",
  ".venv/",
  "venv/",
  "env/",
  ".env/",
  ".idea/",
  ".vscode/",
  "*.sublime-*",
  ".project",
  ".settings/",
  ".classpath",
  "*.swp",
  "*.swo",
  ".DS_Store",
  "Thumbs.db",
  "*.log",
  "coverage/",
  ".coverage",
  "htmlcov/",
  "*.lcov",
  "nosetests.xml",
  "pytest.xml",
  ".pytest_cache/",
  "*.png",
  "*.jpg",
  "*.jpeg",
  "*.gif",
  "*.bmp",
  "*.tiff",
  "*.webp",
  "*.ico",
  "*.svg",
  "*.mp3",
  "*.wav",
  "*.ogg",
  "*.flac",
  "*.mp4",
  "*.avi",
  "*.mov",
  "*.wmv",
  "*.mkv",
  "*.webm",
  "*.pdf",
  "*.doc",
  "*.docx",
  "*.ppt",
  "*.pptx",
  "*.xls",
  "*.xlsx",
  "*.odt",
  "*.odp",
  "*.ods",
  "*.zip",
  "*.tar",
  "*.gz",
  "*.rar",
  "*.7z",
  "*.tgz",
  "*.bz2",
  "*.iso",
  "*.dmg",
  "*.ttf",
  "*.otf",
  "*.woff",
  "*.woff2",
  "node_modules/",
  "vendor/",
  "bower_components/",
  "cdk.out/"]

/-- Abstract view of the user's `.gitignore` file as `read_gitignore_lines`
can encounter it: the path does not exist, it exists but `open`/`read` raises
(the `except` branch), or it is readable with the given text. -/
inductive GitignoreSource where
  | missing : GitignoreSource
  | unreadable : GitignoreSource
  | readable (text : String) : GitignoreSource

/-- The filter the source applies to user lines:
`line.strip() and not line.strip().startswith("#")`. Note the surviving line
itself is kept, not its stripped form. -/
def keepLine (line : String) : Bool :=
  match pyStrip line.data with
  | [] => false
  | c :: _ => c != '#'

/-- Lines of the user file surviving the comment/blank filter, verbatim. -/
def userLines (text : String) : List String :=
  ((pySplitlines text.data).map (fun cs => String.mk cs)).filter keepLine

/-- Embedding of `read_gitignore_lines`: start from (a copy of) the defaults;
when the file exists and is readable, append the surviving user lines; when
it is missing or raises, return the defaults alone. -/
def read_gitignore_lines : GitignoreSource → List String
  | .missing => DEFAULT_IGNORE_PATTERNS
  | .unreadable => DEFAULT_IGNORE_PATTERNS
  | .readable text => DEFAULT_IGNORE_PATTERNS ++ userLines text

mutual
/-- One directory entry of the scanned tree. A directory carries a `readable`
flag: `os.walk` silently skips (default `onerror=None`) a directory whose
enumeration raises. -/
inductive FSEntry where
  | file (name : String) : FSEntry
  | dir (name : String) (readable : Bool) (children : FSEntries) : FSEntry
/-- A list of directory entries, mutually inductive with `FSEntry` so that the
walker is structurally recursive (and hence computable by the kernel). -/
inductive FSEntries where
  | nil : FSEntries
  | cons (e : FSEntry) (rest : FSEntries) : FSEntries
end

/-- The traversal root: its enumerability and its entries. -/
structure FSRoot where
  readable : Bool
  children : FSEntries

mutual
/-- Walks one entry of the directory with relative path `relDir` (segments
from the root). A file is kept when the rule set does not ignore its relative
path (queried without a trailing slash, `isDir = false`); a subdirectory is
pruned from descent entirely when the rule set ignores its relative path
(queried with a trailing slash, `isDir = true`), and otherwise descended into
when `os.walk` can enumerate it. -/
def walkEntry (patterns : List String) (relDir : List String) : FSEntry → List (List String)
  | .file name =>
    if matchFile patterns (relDir ++ [name]) false then [] else [relDir ++ [name]]
  | .dir name readable children =>
    if matchFile patterns (relDir ++ [name]) true then []
    else if readable then walkEntries patterns (relDir ++ [name]) children
    else []
/-- Walks all entries of one directory in enumeration order. -/
def walkEntries (patterns : List String) (relDir : List String) : FSEntries → List (List String)
  | .nil => []
  | .cons e rest => walkEntry patterns relDir e ++ walkEntries patterns relDir rest
end

/-- The unsorted traversal: relative paths (as segment lists) of all surviving
files. An unenumerable root yields nothing, because `os.walk` with the default
`onerror=None` swallows the error from `scandir(top)`. -/
def walkRoot (patterns : List String) (root : FSRoot) : List (List String) :=
  if root.readable then walkEntries patterns [] root.children else []

/-- Joins path segments with the forward slash, as the source builds
`relative_path` for matching and output. -/
def joinPath (segs : List String) : String := String.intercalate "/" segs

/-- Embedding of `find_exportable_files`: walk, filter by the rule set, and
return the relative paths sorted as Python's `sorted` does. -/
def find_exportable_files (patterns : List String) (root : FSRoot) : List String :=
  sortStrings ((walkRoot patterns root).map joinPath)

/-- A node of `generate_file_tree`'s nested-dictionary structure: Python uses
`None` for a file leaf and a `dict` for a directory. -/
inductive TreeNode where
  | leaf : TreeNode
  | branch (children : List (String × TreeNode)) : TreeNode

/-- Dictionary lookup preserving Python semantics (`part in current_level`). -/
def getChild : List (String × TreeNode) → String → Option TreeNode
  | [], _ => none
  | (k, v) :: rest, key => if k == key then some v else getChild rest key

/-- Dictionary assignment: an existing key keeps its insertion position, a new
key is appended, exactly as `current_level[part] = value` behaves. -/
def setChild : List (String × TreeNode) → String → TreeNode → List (String × TreeNode)
  | [], key, v => [(key, v)]
  | (k, v0) :: rest, key, v =>
    if k == key then (k, v) :: rest else (k, v0) :: setChild rest key v

/-- Inserts the segments of one path into the structure: the final segment
becomes a file leaf (overwriting), an intermediate segment a directory,
converting a conflicting file leaf into a directory as the source does (with
a warning on stderr). -/
def insertPath (lvl : List (String × TreeNode)) : List String → List (String × TreeNode)
  | [] => lvl
  | [part] => setChild lvl part .leaf
  | part :: part2 :: rest =>
    let sub : List (String × TreeNode) :=
      match getChild lvl part with
      | some (.branch cs) => cs
      | some .leaf => []
      | none => []
    setChild lvl part (.branch (insertPath sub (part2 :: rest)))

/-- Builds the nested structure from all paths, in list order. -/
def buildStructure (filePaths : List String) : List (String × TreeNode) :=
  filePaths.foldl
    (fun lvl p => insertPath lvl ((splitChar '/' p.data).map (fun cs => String.mk cs))) []

/-- Ordering of dictionary items by key, used for `sorted(level_dict.keys())`. -/
def PairLE (a b : String × TreeNode) : Prop := StrLE a.1 b.1

instance : DecidableRel PairLE := fun a b => Bool.decEq (strLe a.1 b.1) true

/-- Dictionary items sorted by key. -/
def sortPairs (lvl : List (String × TreeNode)) : List (String × TreeNode) :=
  List.insertionSort PairLE lvl

/-- Renders one (already sorted) dictionary level with the connectors of
`format_level`. The `fuel` argument only serves termination: the caller
passes a bound strictly larger than the nesting depth of the structure, so
the `0` branch is never taken. -/
def renderItems (fuel : Nat) (items : List (String × TreeNode)) (indent : String) : List String :=
  match fuel, items with
  | _, [] => []
  | 0, _ => []
  | fuel + 1, (name, node) :: rest =>
    let isLast := rest.isEmpty
    let connector := if isLast then "└── " else "├── "
    let line := indent ++ connector ++ name
    let subLines :=
      match node with
      | .leaf => []
      | .branch cs =>
        renderItems fuel (sortPairs cs) (indent ++ (if isLast then "    " else "│   "))
    line :: (subLines ++ renderItems (fuel + 1) rest indent)
termination_by (fuel, items.length)

/-- Embedding of `generate_file_tree`. -/
def generate_file_tree (filePaths : List String) : String :=
  if filePaths.isEmpty then "(No files found to include in tree)\n"
  else
    let struct := buildStructure filePaths
    let fuelBound := (filePaths.map (fun p => (splitChar '/' p.data).length)).sum + 1
    let treeLines := ["Exported File Structure:", "."] ++ renderItems fuelBound (sortPairs struct) ""
    String.intercalate "\n" treeLines ++ "\n"

/-- The per-file writes of `write_export_file`'s loop, together with the
running `(file_count, total_size)`: for each path the start delimiter is
written, then either the file's content (counting the file and its encoded
size) or the inline error marker when reading raises, then the end
delimiter; the loop never aborts on a read failure. -/
def exportChunks (readFile : String → Except String String) : List String → List String × Nat × Nat
  | [] => ([], 0, 0)
  | p :: rest =>
    let headerLine := "--- START FILE: " ++ p ++ " ---\n"
    let footerLine := "\n--- END FILE: " ++ p ++ " ---\n\n"
    let acc := exportChunks readFile rest
    match readFile p with
    | .ok content =>
      (headerLine :: content :: footerLine :: acc.1, acc.2.1 + 1, acc.2.2 + content.utf8ByteSize)
    | .error e =>
      (headerLine :: ("Error reading file: " ++ e ++ "\n") :: footerLine :: acc.1, acc.2.1, acc.2.2)

/-- Embedding of `write_export_file`: the sequence of strings written to the
output file (optionally prefixed by the file-tree block), and the returned
`(file_count, total_size)`. -/
def write_export_file (filesToExport : List String) (readFile : String → Except String String)
    (includeTree : Bool) : List String × Nat × Nat :=
  let body := exportChunks readFile filesToExport
  ((if includeTree then
      ["--- START FILE TREE ---\n", generate_file_tree filesToExport, "--- END FILE TREE ---\n\n"]
    else []) ++ body.1,
   body.2.1, body.2.2)

/-- The traversal root of the last-match-wins scenario: a single file
`important.log`. -/
def fsImportant : FSRoot := ⟨true, .cons (.file "important.log") .nil⟩

/-- The rule set of the default-pattern scenario: defaults followed by the
user lines `*.log` and `build/`. -/
def c3Patterns : List String := DEFAULT_IGNORE_PATTERNS ++ ["*.log", "build/"]

/-- The root of the default-pattern scenario: exactly `main.py`, `README.md`,
`app.log`, `.env`, `build/output.bin` and `src/module.py`. -/
def c3Root : FSRoot :=
  ⟨true,
    .cons (.file "main.py")
      (.cons (.file "README.md")
        (.cons (.file "app.log")
          (.cons (.file ".env")
            (.cons (.dir "build" true (.cons (.file "output.bin") .nil))
              (.cons (.dir "src" true (.cons (.file "module.py") .nil)) .nil)))))⟩

/-- A root whose enumeration order discovers `z.txt`, then `a/b.txt`, then
`a.txt`. -/
def fsZab : FSRoot :=
  ⟨true,
    .cons (.file "z.txt")
      (.cons (.dir "a" true (.cons (.file "b.txt") .nil))
        (.cons (.file "a.txt") .nil))⟩

/-- The same tree as `fsZab` with a different enumeration order. -/
def fsZab2 : FSRoot :=
  ⟨true,
    .cons (.file "a.txt")
      (.cons (.file "z.txt")
        (.cons (.dir "a" true (.cons (.file "b.txt") .nil)) .nil))⟩

/-- A root with a directory named `logs` (holding a file) and a sibling file. -/
def fsLogsDir : FSRoot :=
  ⟨true,
    .cons (.dir "logs" true (.cons (.file "debug.txt") .nil))
      (.cons (.file "keep.md") .nil)⟩

/-- A root with a plain file named `logs` and a sibling file. -/
def fsLogsFile : FSRoot :=
  ⟨true, .cons (.file "logs") (.cons (.file "keep.md") .nil)⟩

/-- A readable root holding an unopenable subdirectory (which itself holds a
file) next to an ordinary file. -/
def fsLockedSub : FSRoot :=
  ⟨true,
    .cons (.dir "locked" false (.cons (.file "inner.txt") .nil))
      (.cons (.file "ok.txt") .nil)⟩

/-- A root with a `build` directory (holding a file) and a sibling file. -/
def c2Root : FSRoot :=
  ⟨true,
    .cons (.dir "build" true (.cons (.file "output.bin") .nil))
      (.cons (.file "main.py") .nil)⟩

/-- The file list of the export-writer scenario. -/
def c8Files : List String := ["real.txt", "missing.txt"]

/-- The read oracle of the export-writer scenario: one readable file, one
whose `open` raises. -/
def c8Read : String → Except String String := fun p =>
  if p = "real.txt" then .ok "Exists." else .error "No such file or directory"

/-- Comparison of character lists agrees with the negation of the strict
lexicographic order on lists (the order underlying `String`
comparison). -/
theorem charsLe_iff_not_lt : ∀ as bs : List Char, charsLe as bs = true ↔ ¬bs < as := by
  intro as
  induction as with
  | nil =>
    intro bs
    apply iff_of_true rfl
    intro h
    cases bs with
    | nil => nomatch h
    | cons b bs => nomatch h
  | cons a as ih =>
    intro bs
    cases bs with
    | nil =>
      apply iff_of_false
      · simp [charsLe]
      · intro h
        exact h List.Lex.nil
    | cons b bs =>
      show (if a < b then true else if b < a then false else charsLe as bs) = true ↔
        ¬(b :: bs) < (a :: as)
      rcases lt_trichotomy a b with hab | hab | hab
      · rw [if_pos hab]
        apply iff_of_true rfl
        intro h
        cases h with
        | rel hba => exact lt_asymm hab hba
        | cons htl => exact lt_irrefl a hab
      · subst hab
        rw [if_neg (lt_irrefl a), if_neg (lt_irrefl a), ih bs]
        constructor
        · intro h hlt
          cases hlt with
          | rel hlt2 => exact lt_irrefl a hlt2
          | cons htl => exact h htl
        · intro h hlt
          exact h (List.Lex.cons hlt)
      · rw [if_neg (lt_asymm hab), if_pos hab]
        apply iff_of_false
        · simp
        · intro h
          exact h (List.Lex.rel hab)

/-- The sorting comparison agrees with the order on `String`. -/
theorem strLe_iff_le (a b : String) : strLe a b = true ↔ a ≤ b := by
  unfold strLe
  rw [charsLe_iff_not_lt]
  constructor
  · intro h hlt
    exact h (String.lt_iff_toList_lt.mp hlt)
  · intro h hlt
    exact h (String.lt_iff_toList_lt.mpr hlt)

instance : IsTotal String StrLE :=
  ⟨fun a b => by
    rcases le_total a b with h | h
    · exact Or.inl ((strLe_iff_le a b).mpr h)
    · exact Or.inr ((strLe_iff_le b a).mpr h)⟩

instance : IsTrans String StrLE :=
  ⟨fun a b c hab hbc =>
    (strLe_iff_le a c).mpr (le_trans ((strLe_iff_le a b).mp hab) ((strLe_iff_le b c).mp hbc))⟩

instance : IsAntisymm String StrLE :=
  ⟨fun a b hab hba => le_antisymm ((strLe_iff_le a b).mp hab) ((strLe_iff_le b a).mp hba)⟩

/-- A run of patterns none of which matches leaves the verdict accumulator
unchanged. -/
theorem foldl_verdict_const (segs : List String) (isDir : Bool) :
    ∀ (patterns : List String) (acc : Bool),
      (∀ raw ∈ patterns, patternVerdict raw segs isDir = none) →
      patterns.foldl (fun a raw => (patternVerdict raw segs isDir).getD a) acc = acc := by
  intro patterns
  induction patterns with
  | nil => intro acc _; rfl
  | cons r rest ih =>
    intro acc h
    have h1 := h r (List.mem_cons_self r rest)
    simp only [List.foldl_cons, h1, Option.getD_none]
    exact ih acc fun raw hm => h raw (List.mem_cons_of_mem r hm)

/-- A stripped non-null line that compiles has a nonempty segment list. -/
theorem compilePattern_segments {cs : List Char} {pat : GitPattern}
    (h : compilePattern cs = some pat) : ∃ s ss, pat.segments = s :: ss := by
  unfold compilePattern at h
  split at h
  · exact absurd h (by simp)
  · split at h
    · exact absurd h (by simp)
    · cases h
      exact ⟨_, _, rfl⟩

/-- A pattern that compiles has a nonempty segment list. -/
theorem parsePattern_segments {raw : String} {pat : GitPattern}
    (h : parsePattern raw = some pat) : ∃ s ss, pat.segments = s :: ss := by
  unfold parsePattern at h
  split at h
  · exact absurd h (by simp)
  · exact absurd h (by simp)
  · exact compilePattern_segments h

/-- A pattern with segments left over never matches an exhausted candidate. -/
theorem segsMatchAt_nil {pat : GitPattern} (hseg : ∃ s ss, pat.segments = s :: ss)
    (isDir : Bool) : segsMatchAt pat [] isDir = false := by
  obtain ⟨s, ss, hs⟩ := hseg
  unfold segsMatchAt
  rw [hs]
  rfl

/-- No compiled pattern structurally matches the empty relative path. -/
theorem patternMatches_nil {pat : GitPattern} (hseg : ∃ s ss, pat.segments = s :: ss)
    (isDir : Bool) : patternMatches pat [] isDir = false := by
  unfold patternMatches
  rcases hseg with ⟨s, ss, hs⟩
  have hnil : segsMatchAt pat [] isDir = false := segsMatchAt_nil ⟨s, ss, hs⟩ isDir
  cases pat.anchored <;> simp [List.tails, hnil]

/-- No single pattern contributes a verdict for the empty relative path. -/
theorem patternVerdict_nil (raw : String) (isDir : Bool) :
    patternVerdict raw [] isDir = none := by
  unfold patternVerdict
  cases hp : parsePattern raw with
  | none => rfl
  | some pat =>
    simp [patternMatches_nil (parsePattern_segments hp) isDir]

/-- The empty relative path is never ignored. -/
theorem matchFile_nil (patterns : List String) (isDir : Bool) :
    matchFile patterns [] isDir = false := by
  unfold matchFile
  apply foldl_verdict_const
  intro raw _
  exact patternVerdict_nil raw isDir

mutual
/-- Every path produced while walking an entry of directory `relDir` strictly
extends `relDir`. -/
theorem walkEntry_extends (patterns : List String) (relDir : List String) (e : FSEntry)
    (p : List String) (hp : p ∈ walkEntry patterns relDir e) :
    relDir.length < p.length ∧ relDir <+: p := by
  cases e with
  | file name =>
    unfold walkEntry at hp
    split at hp
    · exact absurd hp (List.not_mem_nil p)
    · have hpe : p = relDir ++ [name] := List.mem_singleton.mp hp
      subst hpe
      exact ⟨by simp, List.prefix_append relDir [name]⟩
  | dir name readable children =>
    unfold walkEntry at hp
    split at hp
    · exact absurd hp (List.not_mem_nil p)
    · split at hp
      · have h := walkEntries_extends patterns (relDir ++ [name]) children p hp
        refine ⟨?_, (List.prefix_append relDir [name]).trans h.2⟩
        have h1 := h.1
        simp only [List.length_append, List.length_singleton] at h1
        omega
      · exact absurd hp (List.not_mem_nil p)

/-- Every path produced while walking the entries of directory `relDir`
strictly extends `relDir`. -/
theorem walkEntries_extends (patterns : List String) (relDir : List String) (es : FSEntries)
    (p : List String) (hp : p ∈ walkEntries patterns relDir es) :
    relDir.length < p.length ∧ relDir <+: p := by
  cases es with
  | nil => exact absurd hp (List.not_mem_nil p)
  | cons e rest =>
    unfold walkEntries at hp
    rcases List.mem_append.mp hp with h | h
    · exact walkEntry_extends patterns relDir e p h
    · exact walkEntries_extends patterns relDir rest p h
end

mutual
/-- Pruning invariant for one entry: along any produced path, every proper
ancestor directory below `relDir` was found not ignored (otherwise the walk
would have pruned it and never produced the path). -/
theorem walkEntry_pruned (patterns : List String) (relDir : List String) (e : FSEntry)
    (p : List String) (hp : p ∈ walkEntry patterns relDir e) (k : Nat)
    (hk1 : relDir.length < k) (hk2 : k < p.length) :
    matchFile patterns (p.take k) true = false := by
  cases e with
  | file name =>
    unfold walkEntry at hp
    split at hp
    · exact absurd hp (List.not_mem_nil p)
    · have hpe : p = relDir ++ [name] := List.mem_singleton.mp hp
      subst hpe
      simp only [List.length_append, List.length_singleton] at hk2
      omega
  | dir name readable children =>
    unfold walkEntry at hp
    split at hp
    · exact absurd hp (List.not_mem_nil p)
    · rename_i hmatch
      split at hp
      · by_cases hk : k = relDir.length + 1
        · subst hk
          have hpre := (walkEntries_extends patterns (relDir ++ [name]) children p hp).2
          have htake : relDir ++ [name] = p.take (relDir.length + 1) := by
            have := List.prefix_iff_eq_take.mp hpre
            simpa using this
          rw [← htake]
          exact Bool.eq_false_iff.mpr hmatch
        · have hlen : (relDir ++ [name]).length = relDir.length + 1 := by simp
          exact walkEntries_pruned patterns (relDir ++ [name]) children p hp k
            (by omega) hk2
      · exact absurd hp (List.not_mem_nil p)

/-- Pruning invariant for a list of entries. -/
theorem walkEntries_pruned (patterns : List String) (relDir : List String) (es : FSEntries)
    (p : List String) (hp : p ∈ walkEntries patterns relDir es) (k : Nat)
    (hk1 : relDir.length < k) (hk2 : k < p.length) :
    matchFile patterns (p.take k) true = false := by
  cases es with
  | nil => exact absurd hp (List.not_mem_nil p)
  | cons e rest =>
    unfold walkEntries at hp
    rcases List.mem_append.mp hp with h | h
    · exact walkEntry_pruned patterns relDir e p h k hk1 hk2
    · exact walkEntries_pruned patterns relDir rest p h k hk1 hk2
end

/-- Pruning invariant at the root: along any produced path, every proper
ancestor directory was found not ignored. -/
theorem walkRoot_pruned (patterns : List String) (root : FSRoot) (p : List String)
    (hp : p ∈ walkRoot patterns root) (k : Nat) (hk1 : 0 < k) (hk2 : k < p.length) :
    matchFile patterns (p.take k) true = false := by
  unfold walkRoot at hp
  split at hp
  · exact walkEntries_pruned patterns [] root.children p hp k hk1 hk2
  · exact absurd hp (List.not_mem_nil p)

/-- The start delimiter of every listed file is written, read failures
notwithstanding. -/
theorem exportChunks_start_mem (readFile : String → Except String String)
    (files : List String) : ∀ p ∈ files,
      ("--- START FILE: " ++ p ++ " ---\n") ∈ (exportChunks readFile files).1 := by
  induction files with
  | nil => intro p hp; exact absurd hp (List.not_mem_nil p)
  | cons q rest ih =>
    intro p hp
    unfold exportChunks
    rcases List.mem_cons.mp hp with rfl | hp2
    · cases hr : readFile p <;> simp [hr]
    · cases hr : readFile q <;>
        simp only [hr, List.mem_cons] <;>
        exact Or.inr (Or.inr (Or.inr (ih p hp2)))

/-- The end delimiter of every listed file is written, read failures
notwithstanding. -/
theorem exportChunks_end_mem (readFile : String → Except String String)
    (files : List String) : ∀ p ∈ files,
      ("\n--- END FILE: " ++ p ++ " ---\n\n") ∈ (exportChunks readFile files).1 := by
  induction files with
  | nil => intro p hp; exact absurd hp (List.not_mem_nil p)
  | cons q rest ih =>
    intro p hp
    unfold exportChunks
    rcases List.mem_cons.mp hp with rfl | hp2
    · cases hr : readFile p <;> simp [hr]
    · cases hr : readFile q <;>
        simp only [hr, List.mem_cons] <;>
        exact Or.inr (Or.inr (Or.inr (ih p hp2)))

/-- A listed file whose read raises gets the inline error marker written in
place of its content. -/
theorem exportChunks_error_mem (readFile : String → Except String String)
    (files : List String) : ∀ p e, p ∈ files → readFile p = .error e →
      ("Error reading file: " ++ e ++ "\n") ∈ (exportChunks readFile files).1 := by
  induction files with
  | nil => intro p e hp _; exact absurd hp (List.not_mem_nil p)
  | cons q rest ih =>
    intro p e hp he
    unfold exportChunks
    rcases List.mem_cons.mp hp with rfl | hp2
    · simp [he]
    · cases hr : readFile q <;>
        simp only [hr, List.mem_cons] <;>
        exact Or.inr (Or.inr (Or.inr (ih p e hp2 he)))

/-- The returned file count is the number of listed files whose read
succeeded. -/
theorem exportChunks_count (readFile : String → Except String String)
    (files : List String) :
    (exportChunks readFile files).2.1
      = (files.filter (fun p => (readFile p).toOption.isSome)).length := by
  induction files with
  | nil => rfl
  | cons q rest ih =>
    unfold exportChunks
    cases hr : readFile q <;>
      simp [hr, List.filter_cons, Except.toOption, ih]

/-- A directory-only pattern never structurally matches a single-segment
candidate presented as a file: the matched block would have to end at the end
of the candidate, and a file has no trailing slash. -/
theorem dirOnly_not_match_single (pat : GitPattern) (hseg : ∃ s ss, pat.segments = s :: ss)
    (hdir : pat.directoryOnly = true) (s : String) :
    patternMatches pat [s] false = false := by
  obtain ⟨s0, ss, hs⟩ := hseg
  have hAt : segsMatchAt pat [s] false = false := by
    unfold segsMatchAt
    rw [hs]
    cases ss with
    | nil =>
      by_cases hg : globMatch s0 s.data
      · simp [matchSegsPrefix, hg, hdir]
      · simp [matchSegsPrefix, hg]
    | cons p2 ps =>
      by_cases hg : globMatch s0 s.data
      · simp [matchSegsPrefix, hg]
      · simp [matchSegsPrefix, hg]
  have hNil : segsMatchAt pat [] false = false := segsMatchAt_nil ⟨s0, ss, hs⟩ false
  unfold patternMatches
  cases hanch : pat.anchored <;> simp [List.tails, hAt, hNil]

/-- C1: for every ordered rule set and candidate, the last pattern that
matches determines the verdict: a rule set ending in a matching pattern takes
exactly that pattern's verdict, a non-matching final pattern leaves the
verdict of the earlier patterns unchanged, and with no matching pattern at
all the path is not ignored. Concretely: with `["*.log", "!important.log"]`
the path `important.log` is not ignored and is returned by the traversal,
while with the reversed pair `["!keep.txt", "keep.txt"]` the path `keep.txt`
is ignored. -/
theorem C1_last_match_wins :
    (∀ (patterns : List String) (raw : String) (segs : List String) (isDir : Bool) (v : Bool),
        patternVerdict raw segs isDir = some v →
        matchFile (patterns ++ [raw]) segs isDir = v)
    ∧ (∀ (patterns : List String) (raw : String) (segs : List String) (isDir : Bool),
        patternVerdict raw segs isDir = none →
        matchFile (patterns ++ [raw]) segs isDir = matchFile patterns segs isDir)
    ∧ (∀ (patterns : List String) (segs : List String) (isDir : Bool),
        (∀ raw ∈ patterns, patternVerdict raw segs isDir = none) →
        matchFile patterns segs isDir = false)
    ∧ find_exportable_files ["*.log", "!important.log"] fsImportant = ["important.log"]
    ∧ matchFile ["!keep.txt", "keep.txt"] ["keep.txt"] false = true
    ∧ matchFile ["*.log", "!important.log"] ["important.log"] false = false := by
  refine ⟨?_, ?_, ?_, by decide, by decide, by decide⟩
  · intro patterns raw segs isDir v h
    unfold matchFile
    rw [List.foldl_append]
    simp [h]
  · intro patterns raw segs isDir h
    unfold matchFile
    rw [List.foldl_append]
    simp [h]
  · intro patterns segs isDir h
    exact foldl_verdict_const segs isDir patterns false h

/-- C1 witness: a concrete rule set matched by nothing leaves the candidate
not ignored. -/
theorem C1_last_match_wins_witness :
    (∀ raw ∈ (["*.md"] : List String), patternVerdict raw ["notes.txt"] false = none)
    ∧ matchFile ["*.md"] ["notes.txt"] false = false :=
  ⟨by decide, C1_last_match_wins.2.2.1 ["*.md"] ["notes.txt"] false (by decide)⟩

/-- C2: the sorted result is exactly the joined walk output, and whenever the
rule set ignores a directory path `D` (queried with a trailing slash, that is
`isDir = true`), no walked file path lies strictly below `D` — pruning
removes `D` from descent entirely, whatever later patterns (negations
included) would say about paths below it. -/
theorem C2_pruning_soundness :
    (∀ (patterns : List String) (root : FSRoot) (p : String),
        p ∈ find_exportable_files patterns root ↔
          ∃ segs, segs ∈ walkRoot patterns root ∧ p = joinPath segs)
    ∧ ∀ (patterns : List String) (root : FSRoot) (D segs : List String),
        matchFile patterns D true = true →
        segs ∈ walkRoot patterns root → ¬(D <+: segs ∧ D.length < segs.length) := by
  constructor
  · intro patterns root p
    unfold find_exportable_files sortStrings
    rw [List.mem_insertionSort]
    constructor
    · intro h
      rcases List.mem_map.mp h with ⟨segs, hm, he⟩
      exact ⟨segs, hm, he.symm⟩
    · rintro ⟨segs, hm, rfl⟩
      exact List.mem_map.mpr ⟨segs, hm, rfl⟩
  · rintro patterns root D segs hmatch hmem ⟨hpre, hlen⟩
    rcases Nat.eq_zero_or_pos D.length with h0 | hpos
    · rw [List.length_eq_zero.mp h0] at hmatch
      rw [matchFile_nil] at hmatch
      exact Bool.false_ne_true hmatch
    · have htake : D = segs.take D.length := List.prefix_iff_eq_take.mp hpre
      have hfalse := walkRoot_pruned patterns root segs hmem D.length hpos hlen
      rw [← htake] at hfalse
      rw [hmatch] at hfalse
      exact Bool.noConfusion hfalse

/-- C2 witness: with rule `build/` on a tree holding `build/output.bin` and
`main.py`, the walked path `main.py` is not below the pruned `build`. -/
theorem C2_pruning_soundness_witness :
    ¬((["build"] : List String) <+: ["main.py"]
      ∧ (["build"] : List String).length < (["main.py"] : List String).length) :=
  C2_pruning_soundness.2 ["build/"] c2Root ["build"] ["main.py"] (by decide) (by decide)

/-- C3: on a root holding exactly `main.py`, `README.md`, `app.log`, `.env`,
`build/output.bin` and `src/module.py`, the defaults followed by the user
lines `*.log` and `build/` select exactly
`["README.md", "main.py", "src/module.py"]`: a default pattern ignores
`.env`, the user patterns ignore `app.log` and prune the `build/` subtree. -/
theorem C3_default_scenario :
    find_exportable_files c3Patterns c3Root = ["README.md", "main.py", "src/module.py"]
    ∧ matchFile DEFAULT_IGNORE_PATTERNS [".env"] false = true
    ∧ matchFile c3Patterns ["app.log"] false = true
    ∧ matchFile c3Patterns ["build"] true = true := by
  refine ⟨by decide, by decide, by decide, by decide⟩

/-- C4: the returned list is always sorted by the string order (lexicographic
on code points of the forward-slash relative path); sorting is invariant
under permutation of the discovered paths, so the result is independent of
the enumeration order; with discovered paths `z.txt`, `a/b.txt`, `a.txt` the
result is `["a.txt", "a/b.txt", "z.txt"]`, in either enumeration order. -/
theorem C4_sorted_output :
    (∀ (patterns : List String) (root : FSRoot),
        List.Sorted (· ≤ ·) (find_exportable_files patterns root))
    ∧ (∀ l1 l2 : List String, List.Perm l1 l2 → sortStrings l1 = sortStrings l2)
    ∧ sortStrings ["z.txt", "a/b.txt", "a.txt"] = ["a.txt", "a/b.txt", "z.txt"]
    ∧ find_exportable_files [] fsZab = ["a.txt", "a/b.txt", "z.txt"]
    ∧ find_exportable_files [] fsZab2 = ["a.txt", "a/b.txt", "z.txt"] := by
  refine ⟨?_, ?_, by decide, by decide, by decide⟩
  · intro patterns root
    have hs : List.Sorted StrLE (find_exportable_files patterns root) :=
      List.sorted_insertionSort StrLE ((walkRoot patterns root).map joinPath)
    exact hs.imp fun {a b} h => (strLe_iff_le a b).mp h
  · intro l1 l2 hperm
    exact List.eq_of_perm_of_sorted (r := StrLE)
      ((List.perm_insertionSort StrLE l1).trans
        (hperm.trans (List.perm_insertionSort StrLE l2).symm))
      (List.sorted_insertionSort StrLE l1)
      (List.sorted_insertionSort StrLE l2)

/-- C4 witness: a concrete permutation of discovered paths sorts to the same
result. -/
theorem C4_sorted_output_witness :
    List.Perm (["b.txt", "a.txt"] : List String) ["a.txt", "b.txt"]
    ∧ sortStrings ["b.txt", "a.txt"] = sortStrings ["a.txt", "b.txt"] := by
  have hperm : List.Perm (["b.txt", "a.txt"] : List String) ["a.txt", "b.txt"] := by
    decide
  exact ⟨hperm, C4_sorted_output.2.1 _ _ hperm⟩

/-- C5 counterexample: the claim says a root that cannot be enumerated makes
the walk fail as a whole with a `ScanError`; in the code `os.walk` (default
`onerror=None`) swallows the `scandir` failure and yields nothing, so
`find_exportable_files` succeeds and returns the empty list — here evaluated
at an unenumerable root that does hold a file. No `ScanError` (nor any other
error signal) exists anywhere in the repository. -/
theorem C5_scan_error_counterexample :
    find_exportable_files DEFAULT_IGNORE_PATTERNS
      ⟨false, .cons (.file "data.txt") .nil⟩ = [] := by
  decide

/-- C5 amended: when the traversal root cannot be enumerated the walk
succeeds with an empty result (no error is raised or signalled); when a
subdirectory cannot be opened mid-walk the walk continues and omits that
subtree, but silently — no warning is signalled to the caller. -/
theorem C5_silent_skip :
    (∀ (patterns : List String) (entries : FSEntries),
        find_exportable_files patterns ⟨false, entries⟩ = [])
    ∧ (∀ (patterns relDir : List String) (name : String) (children : FSEntries),
        walkEntry patterns relDir (.dir name false children) = [])
    ∧ find_exportable_files [] fsLockedSub = ["ok.txt"] := by
  refine ⟨?_, ?_, by decide⟩
  · intro patterns entries
    rfl
  · intro patterns relDir name children
    unfold walkEntry
    cases h : matchFile patterns (relDir ++ [name]) true <;> simp [h]

/-- C6: a directory-only pattern (trailing slash) matches the named candidate
only when it is presented as a directory: in general a compiled
directory-only pattern never matches a single-segment candidate presented as
a file; concretely `logs/` matches the directory candidate `logs` (pruning
its whole subtree out of the result) but not a plain file named `logs`,
which stays in the result. -/
theorem C6_directory_only :
    (∀ (raw : String) (pat : GitPattern), parsePattern raw = some pat →
        pat.directoryOnly = true → ∀ s : String, patternMatches pat [s] false = false)
    ∧ matchFile ["logs/"] ["logs"] true = true
    ∧ matchFile ["logs/"] ["logs"] false = false
    ∧ find_exportable_files ["logs/"] fsLogsDir = ["keep.md"]
    ∧ find_exportable_files ["logs/"] fsLogsFile = ["keep.md", "logs"] := by
  refine ⟨?_, by decide, by decide, by decide, by decide⟩
  intro raw pat hparse hdir s
  exact dirOnly_not_match_single pat (parsePattern_segments hparse) hdir s

/-- C6 witness: the compiled form of `logs/` is directory-only and does not
match the file candidate `logs`. -/
theorem C6_directory_only_witness :
    parsePattern "logs/" = some ⟨false, true, false, [['l', 'o', 'g', 's']]⟩
    ∧ patternMatches ⟨false, true, false, [['l', 'o', 'g', 's']]⟩ ["logs"] false = false := by
  refine ⟨by decide, ?_⟩
  exact C6_directory_only.1 "logs/" _ (by decide) (by decide) "logs"

/-- C7 counterexample: the claim says every surviving user line is kept with
leading/trailing whitespace trimmed; the code keeps the surviving line
verbatim — the line ` foo ` survives the blank/comment filter but is
appended untrimmed, so the assembled list is not the defaults plus `foo`. -/
theorem C7_trim_counterexample :
    read_gitignore_lines (.readable " foo ") = DEFAULT_IGNORE_PATTERNS ++ [" foo "]
    ∧ read_gitignore_lines (.readable " foo ") ≠ DEFAULT_IGNORE_PATTERNS ++ ["foo"] :=
  ⟨by decide, by decide⟩

/-- C7 amended: for every user ignore-file content, the assembled list is the
defaults first, in order, followed by exactly the user lines that are
neither blank nor comments (a line is discarded when its stripped form is
empty or starts with `#`); each surviving line is kept verbatim, not
trimmed (whitespace trimming only happens later, inside pathspec's pattern
compilation), and no user pattern precedes any default pattern. -/
theorem C7_assembled_patterns :
    ∀ text : String,
      DEFAULT_IGNORE_PATTERNS <+: read_gitignore_lines (.readable text)
      ∧ (read_gitignore_lines (.readable text)).drop DEFAULT_IGNORE_PATTERNS.length
          = ((pySplitlines text.data).map (fun cs => String.mk cs)).filter keepLine
      ∧ ∀ l, l ∈ (read_gitignore_lines (.readable text)).drop DEFAULT_IGNORE_PATTERNS.length →
          l ∈ (pySplitlines text.data).map (fun cs => String.mk cs)
          ∧ pyStrip l.data ≠ []
          ∧ ∀ c cs, pyStrip l.data = c :: cs → c ≠ '#' := by
  intro text
  have hdrop : (read_gitignore_lines (.readable text)).drop DEFAULT_IGNORE_PATTERNS.length
      = userLines text := by
    show (DEFAULT_IGNORE_PATTERNS ++ userLines text).drop DEFAULT_IGNORE_PATTERNS.length = _
    exact List.drop_left _ _
  refine ⟨List.prefix_append _ _, by rw [hdrop]; rfl, ?_⟩
  intro l hl
  rw [hdrop] at hl
  have hm := List.mem_filter.mp hl
  refine ⟨hm.1, ?_, ?_⟩
  · intro hnil
    have hk := hm.2
    unfold keepLine at hk
    rw [hnil] at hk
    exact Bool.false_ne_true hk
  · intro c cs hcs hc
    have hk := hm.2
    unfold keepLine at hk
    rw [hcs] at hk
    subst hc
    simp at hk

/-- C7 witness: in a concrete file, the surviving line `*.log` is one of the
file's lines and its stripped form is nonempty. -/
theorem C7_assembled_patterns_witness :
    ("*.log" ∈ (pySplitlines ("*.log\n# note\n\nbuild/" : String).data).map
        (fun cs => String.mk cs))
    ∧ pyStrip ("*.log" : String).data ≠ [] := by
  have h := (C7_assembled_patterns "*.log\n# note\n\nbuild/").2.2 "*.log" (by decide)
  exact ⟨h.1, h.2.1⟩

/-- C8: the export writer tolerates unreadable source files without
aborting: every listed path gets its start and end delimiters written, a
path whose read raises gets the inline `Error reading file:` marker written
in place of its content, and the returned file count counts exactly the
paths whose content was successfully read. -/
theorem C8_write_tolerates_failures :
    ∀ (files : List String) (readFile : String → Except String String) (includeTree : Bool),
      (∀ p ∈ files,
          ("--- START FILE: " ++ p ++ " ---\n")
              ∈ (write_export_file files readFile includeTree).1
          ∧ ("\n--- END FILE: " ++ p ++ " ---\n\n")
              ∈ (write_export_file files readFile includeTree).1)
      ∧ (∀ (p e : String), p ∈ files → readFile p = .error e →
          ("Error reading file: " ++ e ++ "\n")
              ∈ (write_export_file files readFile includeTree).1)
      ∧ (write_export_file files readFile includeTree).2.1
          = (files.filter (fun p => (readFile p).toOption.isSome)).length := by
  intro files readFile includeTree
  have h1 : (write_export_file files readFile includeTree).1
      = (if includeTree then ["--- START FILE TREE ---\n", generate_file_tree files,
          "--- END FILE TREE ---\n\n"] else []) ++ (exportChunks readFile files).1 := rfl
  have h2 : (write_export_file files readFile includeTree).2.1
      = (exportChunks readFile files).2.1 := rfl
  refine ⟨?_, ?_, ?_⟩
  · intro p hp
    rw [h1]
    exact ⟨List.mem_append_right _ (exportChunks_start_mem readFile files p hp),
           List.mem_append_right _ (exportChunks_end_mem readFile files p hp)⟩
  · intro p e hp he
    rw [h1]
    exact List.mem_append_right _ (exportChunks_error_mem readFile files p e hp he)
  · rw [h2]
    exact exportChunks_count readFile files

/-- C8 witness: with one readable and one missing file, both delimiters of
the missing file, the inline error marker, and a file count of one. -/
theorem C8_write_tolerates_failures_witness :
    ("--- START FILE: " ++ "missing.txt" ++ " ---\n")
        ∈ (write_export_file c8Files c8Read false).1
    ∧ ("Error reading file: " ++ "No such file or directory" ++ "\n")
        ∈ (write_export_file c8Files c8Read false).1
    ∧ (write_export_file c8Files c8Read false).2.1 = 1 := by
  refine ⟨?_, ?_, ?_⟩
  · exact ((C8_write_tolerates_failures c8Files c8Read false).1 "missing.txt" (by decide)).1
  · exact (C8_write_tolerates_failures c8Files c8Read false).2.1 "missing.txt"
      "No such file or directory" (by decide) rfl
  · rw [(C8_write_tolerates_failures c8Files c8Read false).2.2]
    decide

/-- C9: traversing a root that exists and is enumerable but holds no entries
returns the empty list; the embedding is a total function, so no error is
raised or signalled. -/
theorem C9_empty_root (patterns : List String) :
    find_exportable_files patterns ⟨true, .nil⟩ = [] := rfl

/-- C10: `read_gitignore_lines` is total and lenient: whatever the state of
the user file, the result starts with exactly the default patterns in order;
a missing file, an unreadable file, and a file holding only blanks and
comments each give exactly the defaults. -/
theorem C10_read_gitignore_total :
    (∀ src : GitignoreSource, DEFAULT_IGNORE_PATTERNS <+: read_gitignore_lines src)
    ∧ read_gitignore_lines .missing = DEFAULT_IGNORE_PATTERNS
    ∧ read_gitignore_lines .unreadable = DEFAULT_IGNORE_PATTERNS
    ∧ (∀ text : String,
        (∀ l ∈ (pySplitlines text.data).map (fun cs => String.mk cs), keepLine l = false) →
        read_gitignore_lines (.readable text) = DEFAULT_IGNORE_PATTERNS)
    ∧ read_gitignore_lines (.readable "# commented\n\n   \n") = DEFAULT_IGNORE_PATTERNS := by
  refine ⟨?_, rfl, rfl, ?_, by decide⟩
  · intro src
    cases src with
    | missing => exact List.prefix_refl _
    | unreadable => exact List.prefix_refl _
    | readable text => exact List.prefix_append _ _
  · intro text h
    show DEFAULT_IGNORE_PATTERNS ++ userLines text = DEFAULT_IGNORE_PATTERNS
    have hnil : userLines text = [] := by
      apply List.filter_eq_nil_iff.mpr
      intro l hl
      rw [h l hl]
      simp
    rw [hnil, List.append_nil]

/-- C10 witness: a concrete comments-only file keeps no user line and yields
exactly the defaults. -/
theorem C10_read_gitignore_total_witness :
    (∀ l ∈ (pySplitlines ("# a\n\n" : String).data).map (fun cs => String.mk cs),
        keepLine l = false)
    ∧ read_gitignore_lines (.readable "# a\n\n") = DEFAULT_IGNORE_PATTERNS := by
  refine ⟨by decide, ?_⟩
  exact C10_read_gitignore_total.2.2.2.1 "# a\n\n" (by decide)
